import Mathlib

/-!
# Catalog / user service embedding

Shallow embedding of the catalog-service and user-service business logic
(`src/controllers/ProductController.js`, `src/controllers/UserController.js`
and the Sequelize models) into Lean.

Modelling conventions:
* Database tables are lists of rows, in the order the configured `ORDER BY`
  would yield them; Sequelize query options become explicit filtering /
  slicing on those lists.
* `DECIMAL` prices are modelled as integers (a fixed scaling); the claims
  only compare prices.
* External libraries (bcrypt, jsonwebtoken, Joi) are modelled as function
  parameters: an abstract hash function, an abstract token verifier, an
  abstract body validator.
* JavaScript truthiness on the string / numeric fields that the code tests
  with `!x` or `if (x)` is modelled explicitly (`none`, the empty string and
  the number 0 are falsy).
-/

namespace Catalog

/-! ## Slug generation (`ProductService.generateSlug`) -/

/-- JavaScript `String.prototype.toLowerCase` restricted to the ASCII range
the slug alphabet cares about: `A`–`Z` maps to `a`–`z`. -/
def jsToLower (c : Char) : Char :=
  if 'A' ≤ c ∧ c ≤ 'Z' then Char.ofNat (c.toNat + 32) else c

/-- Membership in the character class `[a-z0-9]` of the slug regex. -/
def isSlugAlnum (c : Char) : Bool :=
  ('a' ≤ c ∧ c ≤ 'z') ∨ ('0' ≤ c ∧ c ≤ '9')

/-- One pass of `replace(/[^a-z0-9]+/g, '-')`. The flag records whether the
scan is inside a non-alphanumeric run whose single hyphen is already
emitted. -/
def collapseGo : Bool → List Char → List Char
  | _, [] => []
  | inRun, c :: cs =>
    if isSlugAlnum c then c :: collapseGo false cs
    else if inRun then collapseGo true cs
    else '-' :: collapseGo true cs

/-- `replace(/[^a-z0-9]+/g, '-')`: every maximal run of characters outside
`[a-z0-9]` becomes a single hyphen. -/
def collapseNonAlnum (l : List Char) : List Char := collapseGo false l

/-- `replace(/^-+|-+$/g, '')`: drop leading and trailing hyphens. -/
def trimHyphens (l : List Char) : List Char :=
  ((l.dropWhile (· == '-')).reverse.dropWhile (· == '-')).reverse

/-- The pure string transform inside `generateSlug`: lowercase, collapse the
maximal non-alphanumeric runs to single hyphens, trim edge hyphens. -/
def slugTransform (name : List Char) : List Char :=
  trimHyphens (collapseNonAlnum (name.map jsToLower))

/-- `ProductService.generateSlug`: run the transform, then reject (`throw`)
when the transform is falsy or contains no character other than `-`. -/
def generateSlug (name : List Char) : Except String (List Char) :=
  let slug := slugTransform name
  if slug = [] ∨ (slug.filter (fun c => c != '-')).length = 0 then
    .error "Invalid slug generated"
  else
    .ok slug

/-! ### Specification-level description of the slug transform

The spec reads the transform as: lowercase the name, then the result is the
maximal runs of characters in `[a-z0-9]`, joined by single hyphens (each
maximal run of other characters became one hyphen, and leading / trailing
hyphens were trimmed). -/

/-- Scanner for `alnumRuns`; `cur` holds the reversed current run. -/
def alnumRunsGo (cur : List Char) : List Char → List (List Char)
  | [] => if cur = [] then [] else [cur.reverse]
  | c :: cs =>
    if isSlugAlnum c then alnumRunsGo (c :: cur) cs
    else if cur = [] then alnumRunsGo [] cs
    else cur.reverse :: alnumRunsGo [] cs

/-- The maximal runs of slug-alphabet characters of a string, in order. -/
def alnumRuns (l : List Char) : List (List Char) := alnumRunsGo [] l

/-- Join character runs with single hyphens between consecutive runs. -/
def hyphenJoin : List (List Char) → List Char
  | [] => []
  | [r] => r
  | r :: s :: rs => r ++ '-' :: hyphenJoin (s :: rs)

/-- The slug a name should map to, phrased as in the specification: maximal
alphanumeric runs of the lowercased name, joined by single hyphens. -/
def slugSpec (name : List Char) : List Char :=
  hyphenJoin (alnumRuns (name.map jsToLower))

/-- String-level wrapper of `generateSlug` used by the product service. -/
def generateSlugStr (name : String) : Except String String :=
  (generateSlug name.toList).map (fun l => String.mk l)

/-! ## Catalog data model

Tables are lists of rows. The order of `CatalogDB.products` stands for the
order the configured `ORDER BY` clause would produce, so `findAndCountAll`
becomes filter / length / drop / take on that list. `DECIMAL` prices are
modelled as integers. -/

/-- A row of the `products` table (`Product.init` in the models). The JSON
columns `dimensions` and `metadata` carry no behaviour in the claims and are
omitted; `tags` is kept because the tag filter reads it. -/
structure Product where
  id : Nat
  name : String
  slug : String
  description : String
  categoryId : Nat
  basePrice : Int
  isCustomizable : Bool
  isActive : Bool
  tags : List String
  deriving DecidableEq

/-- A row of the `product_variants` table (fields the service writes). -/
structure VariantRow where
  productId : Nat
  sku : String
  name : String
  price : Int
  deriving DecidableEq

/-- A row of the `product_images` table (fields the service writes). -/
structure ImageRow where
  productId : Nat
  imageUrl : String
  isPrimary : Bool
  deriving DecidableEq

/-- The catalog datastore. -/
structure CatalogDB where
  products : List Product
  variants : List VariantRow
  images : List ImageRow
  deriving DecidableEq

/-- `variants[i]` of a `POST /products` payload; `Option` marks fields that
may be absent from the JSON. -/
structure VariantData where
  name : Option String := none
  price : Option Int := none
  sku : Option String := none
  deriving DecidableEq

/-- `images[i]` of a `POST /products` payload. -/
structure ImageData where
  imageUrl : Option String := none
  isPrimary : Bool := false
  deriving DecidableEq

/-- A `POST /products` body. `variants` / `images` are `some` exactly when
the JSON field is an array (`Array.isArray`). -/
structure ProductData where
  name : Option String := none
  description : String := ""
  categoryId : Option Nat := none
  basePrice : Option Int := none
  isCustomizable : Bool := false
  tags : List String := []
  variants : Option (List VariantData) := none
  images : Option (List ImageData) := none
  deriving DecidableEq

/-- JavaScript truthiness of an optional string: `undefined` and `''` are
falsy. -/
def truthyStr (o : Option String) : Bool :=
  match o with
  | none => false
  | some s => s != ""

/-- JavaScript truthiness of an optional number: `undefined` and `0` are
falsy. -/
def truthyInt (o : Option Int) : Bool :=
  match o with
  | none => false
  | some n => n != 0

/-- JavaScript truthiness of an optional natural number field. -/
def truthyNat (o : Option Nat) : Bool :=
  match o with
  | none => false
  | some n => n != 0

/-- An HTTP JSON response envelope `{success, data|error, message?}`. -/
structure Resp (α : Type) where
  status : Nat
  success : Bool
  data : Option α := none
  error : Option String := none
  message : Option String := none
  deriving DecidableEq

/-- `Product.findByPk`. -/
def findByPk (rows : List Product) (i : Nat) : Option Product :=
  rows.find? (fun p => p.id == i)

/-- `generateSKU(productId)`; `Date.now()` is passed in as `now`. -/
def generateSKU (productId : Nat) (now : Nat) : String :=
  "PRD-" ++ toString productId ++ "-" ++ toString now

/-- Validation and construction of one variant row inside the creation loop:
`if (!variantData.name || !variantData.price) throw`, then
`sku: variantData.sku || this.generateSKU(product.id)`. -/
def mkVariantRow (productId : Nat) (now : Nat) (vd : VariantData) :
    Except String VariantRow :=
  if ¬ truthyStr vd.name ∨ ¬ truthyInt vd.price then
    .error "Each variant must have a name and price"
  else
    .ok { productId,
          sku := if truthyStr vd.sku then vd.sku.getD "" else generateSKU productId now,
          name := vd.name.getD "",
          price := vd.price.getD 0 }

/-- Validation and construction of one image row inside the creation loop. -/
def mkImageRow (productId : Nat) (im : ImageData) : Except String ImageRow :=
  if ¬ truthyStr im.imageUrl then
    .error "Each image must have a valid imageUrl"
  else
    .ok { productId, imageUrl := im.imageUrl.getD "", isPrimary := im.isPrimary }

/-- The creation `for`-loops: build each row in order, stopping at the first
validation error. -/
def exceptMapM {α β : Type} (f : α → Except String β) : List α → Except String (List β)
  | [] => .ok []
  | a :: as => do
    let b ← f a
    let bs ← exceptMapM f as
    .ok (b :: bs)

/-- The product row `Product.create` stores (with `isActive` defaulting to
`true` as in the model definition). -/
def mkProductRow (pd : ProductData) (newId : Nat) (slug : String) : Product :=
  { id := newId, name := pd.name.getD "", slug,
    description := pd.description, categoryId := pd.categoryId.getD 0,
    basePrice := pd.basePrice.getD 0, isCustomizable := pd.isCustomizable,
    isActive := true, tags := pd.tags }

/-- `ProductService.createProduct`. The transaction is modelled by returning
the untouched datastore on error (rollback) and the extended datastore on
commit. `newId` is the id the store would assign, `now` the clock value used
for generated SKUs. The created row is returned alongside (the service
re-reads it by primary key). -/
def createProduct (db : CatalogDB) (pd : ProductData) (newId now : Nat) :
    Except String (CatalogDB × Product) :=
  if ¬ truthyStr pd.name ∨ ¬ truthyNat pd.categoryId ∨ ¬ truthyInt pd.basePrice then
    .error "Name, category, and base price are required"
  else do
    let slug ← generateSlugStr (pd.name.getD "")
    let vrows ← exceptMapM (mkVariantRow newId now) (pd.variants.getD [])
    let irows ← exceptMapM (mkImageRow newId) (pd.images.getD [])
    .ok ({ products := db.products ++ [mkProductRow pd newId slug],
           variants := db.variants ++ vrows,
           images := db.images ++ irows }, mkProductRow pd newId slug)

/-- `ProductController.createProduct`: 201 on success, 400 with the error
message on any thrown error. -/
def createProductC (db : CatalogDB) (pd : ProductData) (newId now : Nat) :
    CatalogDB × Resp Product :=
  match createProduct db pd newId now with
  | .ok (db2, p) =>
    (db2, { status := 201, success := true, data := some p,
            message := some "Product created successfully" })
  | .error e => (db, { status := 400, success := false, error := some e })

/-- `ProductService.getProductById`: a plain primary-key lookup (it does not
restrict to active rows; only the variant include is filtered, which the
claims do not touch). -/
def getProductById (db : CatalogDB) (i : Nat) : Except String Product :=
  match findByPk db.products i with
  | none => .error "Product not found"
  | some p => .ok p

/-- `ProductController.getProduct`: 200 with the row, 404 on error. -/
def getProductC (db : CatalogDB) (i : Nat) : Resp Product :=
  match getProductById db i with
  | .ok p => { status := 200, success := true, data := some p }
  | .error e => { status := 404, success := false, error := some e }

/-- A `PUT /products/:id` body; `some` marks fields present in the JSON. -/
structure UpdateData where
  name : Option String := none
  description : Option String := none
  categoryId : Option Nat := none
  basePrice : Option Int := none
  isCustomizable : Option Bool := none
  isActive : Option Bool := none
  tags : Option (List String) := none
  deriving DecidableEq

/-- `product.update(updateData)` with an optional regenerated slug: fields
present in the body overwrite the row. -/
def applyUpdate (p : Product) (u : UpdateData) (slug : Option String) : Product :=
  { p with
    name := u.name.getD p.name,
    slug := slug.getD p.slug,
    description := u.description.getD p.description,
    categoryId := u.categoryId.getD p.categoryId,
    basePrice := u.basePrice.getD p.basePrice,
    isCustomizable := u.isCustomizable.getD p.isCustomizable,
    isActive := u.isActive.getD p.isActive,
    tags := u.tags.getD p.tags }

/-- `ProductService.updateProduct`: look up the row, regenerate the slug when
a nonempty, different name is supplied, then persist the update. -/
def updateProduct (db : CatalogDB) (i : Nat) (u : UpdateData) :
    Except String (CatalogDB × Product) :=
  match findByPk db.products i with
  | none => .error "Product not found"
  | some p => do
    let slug2 ←
      match u.name with
      | some n =>
        if n ≠ "" ∧ n ≠ p.name then
          (generateSlugStr n).map (fun s => some s)
        else
          .ok none
      | none => .ok (none : Option String)
    let p2 := applyUpdate p u slug2
    .ok ({ db with
           products := db.products.map (fun q => if q.id == i then p2 else q) }, p2)

/-- `ProductController.updateProduct`: 200 on success, 400 with the error
message on any thrown error (including "Product not found"). -/
def updateProductC (db : CatalogDB) (i : Nat) (u : UpdateData) :
    CatalogDB × Resp Product :=
  match updateProduct db i u with
  | .ok (db2, p) =>
    (db2, { status := 200, success := true, data := some p,
            message := some "Product updated successfully" })
  | .error e => (db, { status := 400, success := false, error := some e })

/-- `product.update({ isActive: false })` on the row with id `i`. -/
def softDeleteRow (i : Nat) (q : Product) : Product :=
  if q.id == i then { q with isActive := false } else q

/-- `ProductService.deleteProduct`: flip `isActive` to `false`, keep the
row. -/
def deleteProduct (db : CatalogDB) (i : Nat) : Except String CatalogDB :=
  match findByPk db.products i with
  | none => .error "Product not found"
  | some _ =>
    .ok { db with products := db.products.map (softDeleteRow i) }

/-- `ProductController.deleteProduct`: 200 with the success message, 404 on
error. -/
def deleteProductC (db : CatalogDB) (i : Nat) : CatalogDB × Resp Product :=
  match deleteProduct db i with
  | .ok db2 =>
    (db2, { status := 200, success := true,
            message := some "Product deleted successfully" })
  | .error e => (db, { status := 404, success := false, error := some e })

/-! ## Listing: filters and pagination -/

/-- ASCII lowercasing as in the slug generator, reused to model the
case-insensitive `iLike` comparison. -/
def lowerAscii (s : String) : String :=
  String.mk (s.toList.map jsToLower)

/-- `iLike '%needle%'`: case-insensitive substring containment. -/
def containsCI (hay needle : String) : Bool :=
  decide ((lowerAscii needle).toList <:+: (lowerAscii hay).toList)

/-- The `filters` object handed to `ProductService.getProducts`; `sortBy` /
`sortOrder` select the row order, which the list model carries implicitly. -/
structure Filters where
  categoryId : Option Nat := none
  search : Option String := none
  priceRange : Option (Int × Int) := none
  isCustomizable : Option Bool := none
  tags : Option (List String) := none
  deriving DecidableEq

/-- The `whereClause` built by `ProductService.getProducts`, as a row
predicate: always `isActive`, then one conjunct per supplied filter
(`if (categoryId)`, `if (search)`, `if (priceRange && ...)`,
`if (typeof isCustomizable === 'boolean')`, `if (tags && tags.length > 0)`). -/
def matchesFilters (f : Filters) (p : Product) : Bool :=
  p.isActive
  && (match f.categoryId with
      | none => true
      | some c => p.categoryId == c)
  && (match f.search with
      | none => true
      | some s =>
        if s = "" then true
        else containsCI p.name s || containsCI p.description s)
  && (match f.priceRange with
      | none => true
      | some pr => decide (pr.1 ≤ p.basePrice ∧ p.basePrice ≤ pr.2))
  && (match f.isCustomizable with
      | none => true
      | some b => p.isCustomizable == b)
  && (match f.tags with
      | none => true
      | some ts => if ts.isEmpty then true else ts.all (fun t => p.tags.contains t))

/-- The `pagination` argument of `ProductService.getProducts`. -/
structure Pagination where
  page : Nat := 1
  limit : Nat := 20
  deriving DecidableEq

/-- The value returned by `ProductService.getProducts`. -/
structure PageResult where
  products : List Product
  page : Nat
  limit : Nat
  totalPages : Nat
  totalItems : Nat
  deriving DecidableEq

/-- `ProductService.getProducts`: filter, then `offset = (page-1)*limit`,
`limit` rows, `Math.ceil(count/limit)` pages (for the positive limits the
controller produces, `Math.ceil` on exact rationals is `(count+limit-1)/limit`
in ℕ). -/
def getProducts (db : CatalogDB) (f : Filters) (pg : Pagination) : PageResult :=
  let offset := (pg.page - 1) * pg.limit
  let matching := db.products.filter (matchesFilters f)
  { products := (matching.drop offset).take pg.limit,
    page := pg.page,
    limit := pg.limit,
    totalPages := (matching.length + pg.limit - 1) / pg.limit,
    totalItems := matching.length }

/-- The query string of `GET /products`, already URL-decoded; numeric
parameters are carried as parsed numbers (`none` = absent or empty, which are
falsy in the controller's checks). -/
structure ProductsQuery where
  categoryId : Option Nat := none
  search : Option String := none
  minPrice : Option Int := none
  maxPrice : Option Int := none
  isCustomizable : Option String := none
  tags : Option String := none
  page : Option Nat := none
  limit : Option Nat := none
  deriving DecidableEq

/-- `String.prototype.split(',')` on the character list: pieces between
commas, keeping empty pieces (`''.split(',')` is `['']`). -/
def splitCommaChars : List Char → List (List Char)
  | [] => [[]]
  | c :: cs =>
    if c = ',' then [] :: splitCommaChars cs
    else
      match splitCommaChars cs with
      | [] => [[c]]
      | r :: rs => (c :: r) :: rs

/-- `req.query.tags.split(',')`. -/
def splitComma (s : String) : List String :=
  (splitCommaChars s.toList).map (fun l => String.mk l)

/-- `ProductController.getProducts`'s `filters` object: note
`isCustomizable: req.query.isCustomizable === 'true'` always produces a
boolean, and the price range needs both ends. -/
def buildFilters (q : ProductsQuery) : Filters :=
  { categoryId := q.categoryId,
    search := q.search,
    priceRange :=
      match q.minPrice, q.maxPrice with
      | some a, some b => some (a, b)
      | _, _ => none,
    isCustomizable := some (q.isCustomizable == some "true"),
    tags :=
      match q.tags with
      | none => none
      | some s => if s = "" then none else some (splitComma s) }

/-- `parseInt(req.query.page) || 1` and `parseInt(req.query.limit) || 20`:
absent, unparsable and zero values fall back to the defaults. -/
def buildPagination (q : ProductsQuery) : Pagination :=
  { page := match q.page with | none => 1 | some n => if n = 0 then 1 else n,
    limit := match q.limit with | none => 20 | some n => if n = 0 then 20 else n }

/-- The body of a `GET /products` 200 response. -/
structure ProductsResp where
  status : Nat
  success : Bool
  result : PageResult
  deriving DecidableEq

/-- `ProductController.getProducts` (the model is total, so the 500 branch is
unreachable). -/
def getProductsC (db : CatalogDB) (q : ProductsQuery) : ProductsResp :=
  { status := 200, success := true,
    result := getProducts db (buildFilters q) (buildPagination q) }

/-- The filter predicate C2 describes: active products satisfying the
conjunction of exactly those filters whose query parameter is present (an
absent parameter imposes no restriction). -/
def specMatchesQuery (q : ProductsQuery) (p : Product) : Bool :=
  p.isActive
  && (match q.categoryId with
      | none => true
      | some c => p.categoryId == c)
  && (match q.search with
      | none => true
      | some s =>
        if s = "" then true
        else containsCI p.name s || containsCI p.description s)
  && (match q.minPrice, q.maxPrice with
      | some a, some b => decide (a ≤ p.basePrice ∧ p.basePrice ≤ b)
      | _, _ => true)
  && (match q.isCustomizable with
      | none => true
      | some s => p.isCustomizable == (s == "true"))
  && (match q.tags with
      | none => true
      | some s =>
        if s = "" then true
        else (splitComma s).all (fun t => p.tags.contains t))

/-- The predicate the code actually applies, written in the spec's shape: it
differs from `specMatchesQuery` only in the customizable conjunct, which is
always enforced with value `isCustomizable === 'true'`. -/
def amendedMatchesQuery (q : ProductsQuery) (p : Product) : Bool :=
  p.isActive
  && (match q.categoryId with
      | none => true
      | some c => p.categoryId == c)
  && (match q.search with
      | none => true
      | some s =>
        if s = "" then true
        else containsCI p.name s || containsCI p.description s)
  && (match q.minPrice, q.maxPrice with
      | some a, some b => decide (a ≤ p.basePrice ∧ p.basePrice ≤ b)
      | _, _ => true)
  && (p.isCustomizable == (q.isCustomizable == some "true"))
  && (match q.tags with
      | none => true
      | some s =>
        if s = "" then true
        else (splitComma s).all (fun t => p.tags.contains t))

/-! ## User service: auth middleware, register, login, profile

External libraries are abstracted: `jsonwebtoken.verify` with the fixed
secret becomes a `verify : String → Option JwtPayload` parameter (returning
`none` exactly on signature/expiry failure), `bcrypt.hash`/`compare` become
`hash` / `compare` parameters, and the Joi body schemas become `validate`
parameters returning the validated value or the list of messages. -/

/-- The claims the service signs into a token. -/
structure JwtPayload where
  id : Nat
  email : String
  role : String
  deriving DecidableEq

/-- Outcome of running a middleware in front of a handler: either the
middleware answered, or the handler ran on a value it attached. -/
inductive AuthOutcome (α : Type) where
  | response (status : Nat) (success : Bool) (error : String) : AuthOutcome α
  | handled (value : α) : AuthOutcome α
  deriving DecidableEq

/-- `String.prototype.replace(pat, '')` with a string pattern: remove the
first occurrence of `pat`, if any. -/
def replaceFirst (pat : List Char) : List Char → List Char
  | [] => []
  | c :: cs =>
    if pat.isPrefixOf (c :: cs) then (c :: cs).drop pat.length
    else c :: replaceFirst pat cs

/-- The token the middleware works with:
`req.header('Authorization')?.replace('Bearer ', '')`, with the falsy empty
string folded into `none`. -/
def extractToken (header : Option String) : Option String :=
  match header with
  | none => none
  | some h =>
    let t := String.mk (replaceFirst "Bearer ".toList h.toList)
    if t = "" then none else some t

/-- The `auth` middleware wrapped around a protected handler. -/
def auth {α : Type} (verify : String → Option JwtPayload)
    (header : Option String) (handler : JwtPayload → α) : AuthOutcome α :=
  match header with
  | none => .response 401 false "No token provided"
  | some h =>
    let token := String.mk (replaceFirst "Bearer ".toList h.toList)
    if token = "" then .response 401 false "No token provided"
    else
      match verify token with
      | none => .response 401 false "Invalid token"
      | some claims => .handled (handler claims)

/-- A row of the `users` table (`resetToken` columns carry no behaviour in
the claims and are omitted). -/
structure User where
  id : Nat
  email : String
  password : String
  name : String
  role : String
  isVerified : Bool
  deriving DecidableEq

/-- The value a valid register body validates to (Joi fills in the default
role `customer`). -/
structure RegisterValue where
  email : String
  password : String
  name : String
  role : String := "customer"
  deriving DecidableEq

/-- The `{email, name, role}` projection returned by a successful
registration. -/
structure UserData where
  email : String
  name : String
  role : String
  deriving DecidableEq

/-- A register / login response body: `error` holds a single message,
`errors` the Joi message array, `token` the signed JWT. -/
structure AuthResp where
  status : Nat
  success : Bool
  error : Option String := none
  errors : List String := []
  data : Option UserData := none
  token : Option String := none
  deriving DecidableEq

/-- `AuthController.register`: validate, reject duplicate emails, then store
the user with the bcrypt hash of the password and answer 201. `newId` is the
id the store would assign. -/
def register {β : Type} (validate : β → Except (List String) RegisterValue)
    (hash : String → String) (db : List User) (newId : Nat) (body : β) :
    List User × AuthResp :=
  match validate body with
  | .error msgs => (db, { status := 400, success := false, errors := msgs })
  | .ok v =>
    match db.find? (fun u => u.email == v.email) with
    | some _ =>
      (db, { status := 400, success := false,
             error := some "Email already registered" })
    | none =>
      let u : User :=
        { id := newId, email := v.email, password := hash v.password,
          name := v.name, role := v.role, isVerified := false }
      (db ++ [u],
       { status := 201, success := true,
         data := some { email := v.email, name := v.name, role := v.role } })

/-- `AuthController.login`: validate, look the user up by email, compare the
password against the stored bcrypt hash, and sign a token on success. -/
def login {β : Type} (validate : β → Except (List String) (String × String))
    (compare : String → String → Bool) (sign : User → String)
    (db : List User) (body : β) : AuthResp :=
  match validate body with
  | .error msgs => { status := 400, success := false, errors := msgs }
  | .ok (email, password) =>
    match db.find? (fun u => u.email == email) with
    | none => { status := 401, success := false, error := some "Invalid credentials" }
    | some u =>
      if compare password u.password then
        { status := 200, success := true, token := some (sign u) }
      else
        { status := 401, success := false, error := some "Invalid credentials" }

/-- A `PUT /profile` body: any subset of user columns may be supplied. -/
structure ProfileBody where
  email : Option String := none
  password : Option String := none
  name : Option String := none
  role : Option String := none
  isVerified : Option Bool := none
  deriving DecidableEq

/-- The `role` column's `isIn` validator. -/
def validRole (r : String) : Bool :=
  r == "customer" || r == "admin" || r == "designer" || r == "production"

/-- `user.update(req.body, { fields: ['name', 'role'] })`: only the `name`
and `role` columns are written, whatever else the body carries. -/
def applyProfileUpdate (u : User) (b : ProfileBody) : User :=
  { u with name := b.name.getD u.name, role := b.role.getD u.role }

/-- A profile response. -/
structure UserResp where
  status : Nat
  success : Bool
  error : Option String := none
  data : Option User := none
  deriving DecidableEq

/-- `ProfileController.updateProfile` for an authenticated user id: 404 when
the row is gone, 400 when the written columns fail model validation (role
enum, name length 2–100), otherwise persist the two writable columns. -/
def updateProfileC (db : List User) (uid : Nat) (b : ProfileBody) :
    List User × UserResp :=
  match db.find? (fun u => u.id == uid) with
  | none => (db, { status := 404, success := false, error := some "User not found" })
  | some u =>
    if (match b.role with | some r => ! validRole r | none => false)
        || (match b.name with
            | some n => decide (n.length < 2) || decide (n.length > 100)
            | none => false) then
      (db, { status := 400, success := false, error := some "Validation error" })
    else
      (db.map (fun x => if x.id == uid then applyProfileUpdate x b else x),
       { status := 200, success := true, data := some (applyProfileUpdate u b) })

/-! ## Concrete fixtures used by the individual claim analyses -/

/-- An active product row (soft-delete analysis). -/
def prodA : Product :=
  { id := 1, name := "Alpha Chair", slug := "alpha-chair",
    description := "A chair", categoryId := 1, basePrice := 100,
    isCustomizable := false, isActive := true, tags := [] }

/-- A one-product datastore (soft-delete analysis). -/
def dbA : CatalogDB := { products := [prodA], variants := [], images := [] }

/-- An active, customizable product row (filter analysis). -/
def prodC2 : Product :=
  { id := 2, name := "Custom Mug", slug := "custom-mug", description := "",
    categoryId := 1, basePrice := 20, isCustomizable := true,
    isActive := true, tags := [] }

/-- A one-product datastore (filter analysis). -/
def dbC2 : CatalogDB := { products := [prodC2], variants := [], images := [] }

/-- `GET /products` with no query parameters at all. -/
def emptyQuery : ProductsQuery := {}

/-- An empty datastore (update-not-found analysis). -/
def dbEmpty : CatalogDB := { products := [], variants := [], images := [] }

/-- An empty datastore (creation analysis). -/
def dbC4 : CatalogDB := { products := [], variants := [], images := [] }

/-- A well-formed creation payload with one variant and one image. -/
def pdGood : ProductData :=
  { name := some "Desk Lamp", categoryId := some 3, basePrice := some 50,
    variants := some [{ name := some "Small", price := some 40 }],
    images := some [{ imageUrl := some "http://img.example/1.jpg", isPrimary := true }] }

/-- A creation payload whose variant lacks a price. -/
def pdBad : ProductData :=
  { name := some "Desk Lamp", categoryId := some 3, basePrice := some 50,
    variants := some [{ name := some "Small" }],
    images := some [{ imageUrl := some "http://img.example/1.jpg", isPrimary := true }] }

/-- A token verifier accepting exactly one token (auth analysis). -/
def verifyW : String → Option JwtPayload := fun s =>
  if s = "tok123" then some { id := 7, email := "u@example.com", role := "customer" }
  else none

/-- A three-product datastore (pagination analysis). -/
def dbC7 : CatalogDB :=
  { products :=
      [{ id := 11, name := "P1", slug := "p1", description := "",
         categoryId := 1, basePrice := 10, isCustomizable := false,
         isActive := true, tags := [] },
       { id := 12, name := "P2", slug := "p2", description := "",
         categoryId := 1, basePrice := 20, isCustomizable := false,
         isActive := true, tags := [] },
       { id := 13, name := "P3", slug := "p3", description := "",
         categoryId := 1, basePrice := 30, isCustomizable := false,
         isActive := true, tags := [] }],
    variants := [], images := [] }

/-- A register validator answering a fixed valid value (register analysis). -/
def validateReg0 : Unit → Except (List String) RegisterValue :=
  fun _ => .ok { email := "new@example.com", password := "secret1", name := "Ann" }

/-- A register validator answering a duplicate email (register analysis). -/
def validateReg1 : Unit → Except (List String) RegisterValue :=
  fun _ => .ok { email := "old@example.com", password := "secret1", name := "Ann" }

/-- A stand-in bcrypt hash (register analysis). -/
def hash0 : String → String := fun s => "hashed-" ++ s

/-- A one-user table (register analysis). -/
def dbUsers0 : List User :=
  [{ id := 1, email := "old@example.com", password := "hashed-pw",
     name := "Old", role := "customer", isVerified := false }]

/-- A one-user table (profile analysis). -/
def dbUsers1 : List User :=
  [{ id := 5, email := "p@q.example", password := "stored-hash",
     name := "Pat", role := "customer", isVerified := true }]

/-- A `PUT /profile` body that tries to overwrite every column. -/
def bodyAttack : ProfileBody :=
  { email := some "evil@x.example", password := some "owned",
    name := some "Eve", role := some "admin", isVerified := some false }

/-- A one-user table (login analysis). -/
def dbUsers2 : List User :=
  [{ id := 9, email := "known@example.com", password := "hashed-login-pw",
     name := "Kay", role := "customer", isVerified := true }]

/-- A login validator: body 1 carries an unknown email, body 2 a known email
with a wrong password (login analysis). -/
def validateLogin0 : Nat → Except (List String) (String × String) := fun n =>
  if n = 1 then .ok ("ghost@example.com", "whatever")
  else .ok ("known@example.com", "wrong-pw")

/-- A stand-in bcrypt compare: accepts exactly the stored hash's preimage
under `hash0` (login analysis). -/
def compare0 : String → String → Bool := fun plain hashed =>
  hash0 plain == hashed

/-- A stand-in token signer (login analysis). -/
def sign0 : User → String := fun u => "signed-" ++ u.email

/-! ### Lemmas relating the implementation transform to `slugSpec` -/

theorem dropWhile_length_le {α : Type} (p : α → Bool) :
    ∀ l : List α, (l.dropWhile p).length ≤ l.length
  | [] => Nat.le_refl _
  | a :: l => by
    by_cases h : p a
    · rw [List.dropWhile_cons_of_pos h]
      exact Nat.le_succ_of_le (dropWhile_length_le p l)
    · rw [List.dropWhile_cons_of_neg h]

theorem isSlugAlnum_ne_hyphen {c : Char} (h : isSlugAlnum c = true) : c ≠ '-' := by
  intro e
  subst e
  exact absurd h (by decide)

theorem collapse_nil : collapseNonAlnum [] = [] := rfl

/-- Inside a non-alphanumeric run, the scan just skips to the next
alphanumeric character. -/
theorem collapseGo_true_eq (cs : List Char) :
    collapseGo true cs = collapseGo false (cs.dropWhile (fun d => ! isSlugAlnum d)) := by
  induction cs with
  | nil => rfl
  | cons c cs ih =>
    cases h : isSlugAlnum c with
    | true =>
      rw [List.dropWhile_cons_of_neg (by simp [h])]
      simp [collapseGo, h]
    | false =>
      rw [List.dropWhile_cons_of_pos (by simp [h])]
      simpa [collapseGo, h] using ih

theorem collapse_cons_pos {c : Char} (cs : List Char) (h : isSlugAlnum c = true) :
    collapseNonAlnum (c :: cs) = c :: collapseNonAlnum cs := by
  simp [collapseNonAlnum, collapseGo, h]

theorem collapse_cons_neg {c : Char} (cs : List Char) (h : isSlugAlnum c = false) :
    collapseNonAlnum (c :: cs) =
      '-' :: collapseNonAlnum (cs.dropWhile (fun d => ! isSlugAlnum d)) := by
  simp [collapseNonAlnum, collapseGo, h, collapseGo_true_eq]

/-- Mid-run invariant of the `alnumRuns` scanner. -/
theorem alnumRunsGo_acc (cs : List Char) : ∀ acc : List Char, acc ≠ [] →
    alnumRunsGo acc cs =
      (acc.reverse ++ cs.takeWhile isSlugAlnum)
        :: alnumRunsGo [] (cs.dropWhile isSlugAlnum) := by
  induction cs with
  | nil =>
    intro acc hacc
    simp [alnumRunsGo, hacc]
  | cons c cs ih =>
    intro acc hacc
    cases h : isSlugAlnum c with
    | true =>
      rw [List.takeWhile_cons_of_pos h, List.dropWhile_cons_of_pos h]
      simp only [alnumRunsGo, h, if_pos]
      rw [ih (c :: acc) (by simp)]
      simp
    | false =>
      rw [List.takeWhile_cons_of_neg (by simp [h]),
        List.dropWhile_cons_of_neg (by simp [h])]
      simp [alnumRunsGo, h, hacc]

theorem alnumRuns_cons_pos {c : Char} (cs : List Char) (h : isSlugAlnum c = true) :
    alnumRuns (c :: cs) =
      (c :: cs.takeWhile isSlugAlnum) :: alnumRuns (cs.dropWhile isSlugAlnum) := by
  rw [alnumRuns, alnumRunsGo]
  rw [if_pos h, alnumRunsGo_acc cs [c] (by simp)]
  rfl

theorem alnumRuns_cons_neg {c : Char} (cs : List Char) (h : isSlugAlnum c = false) :
    alnumRuns (c :: cs) = alnumRuns cs := by
  rw [alnumRuns, alnumRunsGo]
  rw [if_neg (by simp [h]), if_pos rfl]
  rfl

/-- Leading non-alphanumeric characters do not contribute runs. -/
theorem alnumRuns_dropWhile (l : List Char) :
    alnumRuns (l.dropWhile (fun d => ! isSlugAlnum d)) = alnumRuns l := by
  induction l with
  | nil => rfl
  | cons c cs ih =>
    cases h : isSlugAlnum c with
    | true => rw [List.dropWhile_cons_of_neg (by simp [h])]
    | false =>
      rw [List.dropWhile_cons_of_pos (by simp [h]), ih, alnumRuns_cons_neg _ h]

/-- A list is empty or starts with a slug-alphabet character. -/
def headOk : List Char → Prop
  | [] => True
  | c :: _ => isSlugAlnum c = true

/-- The last character exists and is outside the slug alphabet. -/
def endsNonAlnum (l : List Char) : Bool :=
  match l.getLast? with
  | none => false
  | some c => ! isSlugAlnum c

theorem dropNA_headOk (x : List Char) :
    headOk (x.dropWhile (fun d => ! isSlugAlnum d)) := by
  induction x with
  | nil => trivial
  | cons c cs ih =>
    cases h : isSlugAlnum c with
    | true =>
      rw [List.dropWhile_cons_of_neg (by simp [h])]
      exact h
    | false =>
      rw [List.dropWhile_cons_of_pos (by simp [h])]
      exact ih

theorem dropWhile_hyphen_of_headOk {l : List Char} (h : headOk l) :
    l.dropWhile (· == '-') = l := by
  cases l with
  | nil => rfl
  | cons c cs =>
    exact List.dropWhile_cons_of_neg (by simp [isSlugAlnum_ne_hyphen h])

/-- Collapsing a string that is empty or starts alphanumeric yields a string
with no leading hyphen. -/
theorem dropWhile_hyphen_collapse_of_headOk {w : List Char} (h : headOk w) :
    (collapseNonAlnum w).dropWhile (· == '-') = collapseNonAlnum w := by
  cases w with
  | nil => rw [collapse_nil]; rfl
  | cons c cs =>
    rw [collapse_cons_pos _ h,
      List.dropWhile_cons_of_neg (by simp [isSlugAlnum_ne_hyphen h])]

/-- Stripping leading hyphens from the collapsed string is the same as
collapsing the string with its leading non-alphanumerics dropped. -/
theorem dropWhile_hyphen_collapse (l : List Char) :
    (collapseNonAlnum l).dropWhile (· == '-')
      = collapseNonAlnum (l.dropWhile (fun d => ! isSlugAlnum d)) := by
  cases l with
  | nil => simp [collapse_nil]
  | cons c cs =>
    cases h : isSlugAlnum c with
    | true =>
      rw [List.dropWhile_cons_of_neg (by simp [h]), collapse_cons_pos _ h,
        List.dropWhile_cons_of_neg (by simp [isSlugAlnum_ne_hyphen h])]
    | false =>
      rw [collapse_cons_neg _ h, List.dropWhile_cons_of_pos (by simp),
        List.dropWhile_cons_of_pos (by simp [h]),
        dropWhile_hyphen_collapse_of_headOk (dropNA_headOk cs)]

theorem alnumRuns_nil : alnumRuns [] = [] := rfl

theorem hyphenJoin_cons_cons (c : Char) (x : List Char) (R : List (List Char)) :
    hyphenJoin ((c :: x) :: R) = c :: hyphenJoin (x :: R) := by
  cases R <;> simp [hyphenJoin]

theorem hyphenJoin_cons_of_ne_nil (r : List Char) {R : List (List Char)}
    (h : R ≠ []) : hyphenJoin (r :: R) = r ++ '-' :: hyphenJoin R := by
  cases R with
  | nil => exact absurd rfl h
  | cons s rs => rfl

/-- Every run produced by `alnumRuns` is nonempty and alphanumeric. -/
theorem alnumRuns_wf : ∀ (n : Nat) (l : List Char), l.length ≤ n →
    ∀ r ∈ alnumRuns l, r ≠ [] ∧ ∀ c ∈ r, isSlugAlnum c = true := by
  intro n
  induction n with
  | zero =>
    intro l hl
    have : l = [] := List.eq_nil_of_length_eq_zero (Nat.le_zero.mp hl)
    subst this
    rw [alnumRuns_nil]
    intro r hr
    exact absurd hr (List.not_mem_nil r)
  | succ n ih =>
    intro l hl r hr
    match l with
    | [] =>
      rw [alnumRuns_nil] at hr
      exact absurd hr (List.not_mem_nil r)
    | c :: cs =>
      cases hc : isSlugAlnum c with
      | true =>
        rw [alnumRuns_cons_pos _ hc] at hr
        rcases List.mem_cons.mp hr with h1 | h2
        · subst h1
          refine ⟨by simp, ?_⟩
          intro a ha
          rcases List.mem_cons.mp ha with rfl | ha2
          · exact hc
          · exact List.mem_takeWhile_imp ha2
        · have hlen : (cs.dropWhile isSlugAlnum).length ≤ n := by
            have h1 := dropWhile_length_le isSlugAlnum cs
            have h2 : cs.length ≤ n := by
              simpa using Nat.le_of_succ_le_succ hl
            omega
          exact ih (cs.dropWhile isSlugAlnum) hlen r h2
      | false =>
        rw [alnumRuns_cons_neg _ hc] at hr
        have h2 : cs.length ≤ n := by
          simpa using Nat.le_of_succ_le_succ hl
        exact ih cs h2 r hr

theorem endsNonAlnum_cons_cons (c d : Char) (ds : List Char) :
    endsNonAlnum (c :: d :: ds) = endsNonAlnum (d :: ds) := by
  simp [endsNonAlnum, List.getLast?_cons_cons]

theorem endsNonAlnum_of_all : ∀ (ds : List Char) (d : Char),
    (∀ x ∈ d :: ds, isSlugAlnum x = false) → endsNonAlnum (d :: ds) = true
  | [], d, h => by simp [endsNonAlnum, h d (by simp)]
  | e :: es, d, h => by
    rw [endsNonAlnum_cons_cons]
    exact endsNonAlnum_of_all es e (fun x hx => h x (List.mem_cons_of_mem d hx))

theorem endsNonAlnum_dropNA : ∀ (ds : List Char),
    ds.dropWhile (fun d => ! isSlugAlnum d) ≠ [] →
    endsNonAlnum ds = endsNonAlnum (ds.dropWhile (fun d => ! isSlugAlnum d))
  | [], h => absurd rfl h
  | c :: cs, h => by
    cases hc : isSlugAlnum c with
    | true => rw [List.dropWhile_cons_of_neg (by simp [hc])]
    | false =>
      rw [List.dropWhile_cons_of_pos (by simp [hc])] at h ⊢
      cases cs with
      | nil => exact absurd rfl h
      | cons e es =>
        rw [endsNonAlnum_cons_cons]
        exact endsNonAlnum_dropNA (e :: es) h

/-- On strings that are empty or start alphanumeric, collapsing is joining the
alphanumeric runs with hyphens, plus one trailing hyphen when the string ends
with a non-alphanumeric character. -/
theorem collapse_eq_join : ∀ (n : Nat) (l : List Char), l.length ≤ n → headOk l →
    collapseNonAlnum l
      = hyphenJoin (alnumRuns l) ++ (if endsNonAlnum l then ['-'] else []) := by
  intro n
  induction n with
  | zero =>
    intro l hl _
    have : l = [] := List.eq_nil_of_length_eq_zero (Nat.le_zero.mp hl)
    subst this
    simp [collapse_nil, alnumRuns_nil, hyphenJoin, endsNonAlnum]
  | succ n ih =>
    intro l hl hOk
    match l with
    | [] => simp [collapse_nil, alnumRuns_nil, hyphenJoin, endsNonAlnum]
    | [c] =>
      have hc : isSlugAlnum c = true := hOk
      rw [collapse_cons_pos _ hc, collapse_nil, alnumRuns_cons_pos _ hc]
      simp [alnumRuns_nil, hyphenJoin, endsNonAlnum, hc]
    | c :: d :: ds =>
      have hc : isSlugAlnum c = true := hOk
      have hds : ds.length + 2 ≤ n + 1 := by simpa using hl
      cases hd : isSlugAlnum d with
      | true =>
        have ihcs := ih (d :: ds) (by simp; omega) hd
        rw [alnumRuns_cons_pos _ hd] at ihcs
        rw [collapse_cons_pos _ hc, ihcs, alnumRuns_cons_pos _ hc,
          List.takeWhile_cons_of_pos hd, List.dropWhile_cons_of_pos hd,
          endsNonAlnum_cons_cons]
        simp [hyphenJoin_cons_cons]
      | false =>
        rw [collapse_cons_pos _ hc, collapse_cons_neg _ hd,
          alnumRuns_cons_pos _ hc, List.takeWhile_cons_of_neg (by simp [hd]),
          List.dropWhile_cons_of_neg (by simp [hd]), alnumRuns_cons_neg _ hd,
          ← alnumRuns_dropWhile ds, endsNonAlnum_cons_cons]
        cases hw : ds.dropWhile (fun d => ! isSlugAlnum d) with
        | nil =>
          rw [alnumRuns_nil, collapse_nil]
          have hall : ∀ x ∈ d :: ds, isSlugAlnum x = false := by
            intro x hx
            rcases List.mem_cons.mp hx with rfl | hx2
            · exact hd
            · have := List.dropWhile_eq_nil_iff.mp hw x hx2
              simpa using this
          rw [endsNonAlnum_of_all ds d hall]
          simp [hyphenJoin]
        | cons e es =>
          have hwOk : headOk (ds.dropWhile (fun d => ! isSlugAlnum d)) :=
            dropNA_headOk ds
          rw [hw] at hwOk
          have he : isSlugAlnum e = true := hwOk
          have hlen : (e :: es).length ≤ n := by
            have h1 := dropWhile_length_le (fun d => ! isSlugAlnum d) ds
            rw [hw] at h1
            simp at h1 ⊢
            omega
          have ihw := ih (e :: es) hlen he
          rw [ihw,
            hyphenJoin_cons_of_ne_nil _ (by rw [alnumRuns_cons_pos _ he]; simp)]
          have hends : endsNonAlnum (d :: ds) = endsNonAlnum (e :: es) := by
            cases ds with
            | nil => simp at hw
            | cons f fs =>
              rw [endsNonAlnum_cons_cons,
                endsNonAlnum_dropNA (f :: fs) (by rw [hw]; simp), hw]
          rw [hends]
          simp

/-- A nonempty hyphen-join of nonempty alphanumeric runs ends in an
alphanumeric character. -/
theorem hyphenJoin_getLast_alnum : ∀ R : List (List Char), R ≠ [] →
    (∀ r ∈ R, r ≠ [] ∧ ∀ c ∈ r, isSlugAlnum c = true) →
    ∃ c, (hyphenJoin R).getLast? = some c ∧ isSlugAlnum c = true
  | [], h, _ => absurd rfl h
  | [r], _, hwf => by
    obtain ⟨hr, hall⟩ := hwf r (by simp)
    refine ⟨r.getLast hr, ?_, hall _ (List.getLast_mem hr)⟩
    simpa [hyphenJoin] using List.getLast?_eq_getLast r hr
  | r :: s :: rs, _, hwf => by
    obtain ⟨c, hc, hcal⟩ :=
      hyphenJoin_getLast_alnum (s :: rs) (by simp)
        (fun x hx => hwf x (List.mem_cons_of_mem r hx))
    refine ⟨c, ?_, hcal⟩
    have hne : hyphenJoin (s :: rs) ≠ [] := by
      intro he
      rw [he] at hc
      exact absurd hc (by simp)
    show (r ++ '-' :: hyphenJoin (s :: rs)).getLast? = some c
    rw [List.getLast?_append_of_ne_nil r (by simp)]
    cases hj : hyphenJoin (s :: rs) with
    | nil => exact absurd hj hne
    | cons x xs =>
      rw [List.getLast?_cons_cons]
      rw [hj] at hc
      exact hc

/-- Dropping trailing hyphens leaves a hyphen-join of nonempty alphanumeric
runs unchanged. -/
theorem reverse_dropWhile_hyphenJoin (l : List Char) :
    ((hyphenJoin (alnumRuns l)).reverse.dropWhile (· == '-')).reverse
      = hyphenJoin (alnumRuns l) := by
  cases hR : alnumRuns l with
  | nil => simp [hyphenJoin]
  | cons r rs =>
    obtain ⟨c, hc, hcal⟩ :=
      hyphenJoin_getLast_alnum (r :: rs) (by simp)
        (by rw [← hR]; exact alnumRuns_wf l.length l (Nat.le_refl _))
    have hhead : (hyphenJoin (r :: rs)).reverse.head? = some c := by
      rw [List.head?_reverse]
      exact hc
    cases hrev : (hyphenJoin (r :: rs)).reverse with
    | nil => rw [hrev] at hhead; exact absurd hhead (by simp)
    | cons x xs =>
      rw [hrev] at hhead
      have hx : x = c := by simpa using hhead
      subst hx
      rw [List.dropWhile_cons_of_neg (by simp [isSlugAlnum_ne_hyphen hcal]), ← hrev,
        List.reverse_reverse]

/-- The implementation transform equals the specification-level slug. -/
theorem slugTransform_eq_slugSpec (name : List Char) :
    slugTransform name = slugSpec name := by
  rw [slugTransform, slugSpec, trimHyphens, dropWhile_hyphen_collapse,
    collapse_eq_join (name.map jsToLower).length _
      (by exact dropWhile_length_le _ _) (dropNA_headOk _),
    alnumRuns_dropWhile]
  cases h : endsNonAlnum ((name.map jsToLower).dropWhile (fun d => ! isSlugAlnum d)) with
  | false =>
    simp only [if_neg (by decide : ¬ (false = true))]
    rw [List.append_nil]
    exact reverse_dropWhile_hyphenJoin _
  | true =>
    simp only [if_pos rfl]
    rw [List.reverse_append]
    show ((['-'].reverse ++ _).dropWhile (· == '-')).reverse = _
    rw [List.reverse_singleton]
    rw [List.cons_append, List.dropWhile_cons_of_pos (by simp), List.nil_append]
    exact reverse_dropWhile_hyphenJoin _

/-- `generateSlug` rejects exactly the names whose specified slug is empty,
and otherwise returns that slug. -/
theorem generateSlug_eq (name : List Char) :
    generateSlug name =
      if slugSpec name = [] then Except.error "Invalid slug generated"
      else Except.ok (slugSpec name) := by
  rw [generateSlug, slugTransform_eq_slugSpec]
  cases hR : slugSpec name with
  | nil => simp
  | cons x xs =>
    have hwf : ∀ r ∈ alnumRuns (name.map jsToLower), r ≠ [] ∧
        ∀ c ∈ r, isSlugAlnum c = true :=
      alnumRuns_wf (name.map jsToLower).length _ (Nat.le_refl _)
    have hRne : alnumRuns (name.map jsToLower) ≠ [] := by
      intro he
      rw [slugSpec, he] at hR
      exact absurd hR (by simp [hyphenJoin])
    obtain ⟨c, hc, hcal⟩ :=
      hyphenJoin_getLast_alnum (alnumRuns (name.map jsToLower)) hRne hwf
    have hmem : c ∈ slugSpec name := List.mem_of_mem_getLast? hc
    have hfil : c ∈ (slugSpec name).filter (fun c => c != '-') := by
      rw [List.mem_filter]
      exact ⟨hmem, by simp [isSlugAlnum_ne_hyphen hcal]⟩
    have hlen : ((slugSpec name).filter (fun c => c != '-')).length ≠ 0 := by
      intro h0
      rw [List.length_eq_zero] at h0
      rw [h0] at hfil
      exact absurd hfil (List.not_mem_nil c)
    rw [hR] at hfil hlen
    have hcons : x :: xs ≠ [] := by simp
    rw [if_neg (fun hor => hor.elim (fun h1 => hcons h1) (fun h2 => hlen h2)),
      if_neg hcons]

/-! ### Shared lemmas for the service operations -/

theorem find?_map_comp {α β : Type} (f : α → β) (p : β → Bool) (l : List α) :
    (l.map f).find? p = (l.find? (fun a => p (f a))).map f := by
  induction l with
  | nil => rfl
  | cons a as ih =>
    simp only [List.map_cons, List.find?_cons]
    cases h : p (f a) with
    | true => simp [h]
    | false => simp [h, ih]

theorem exceptMapM_ok_mem {α β : Type} (f : α → Except String β) :
    ∀ (l : List α) (ys : List β), exceptMapM f l = .ok ys →
      ∀ a ∈ l, ∃ b ∈ ys, f a = .ok b := by
  intro l
  induction l with
  | nil =>
    intro ys _ a ha
    exact absurd ha (List.not_mem_nil a)
  | cons x xs ih =>
    intro ys h a ha
    cases hfx : f x with
    | error e =>
      rw [exceptMapM, hfx] at h
      exact absurd h (by simp [Bind.bind, Except.bind])
    | ok b =>
      cases hxs : exceptMapM f xs with
      | error e =>
        rw [exceptMapM, hfx, hxs] at h
        exact absurd h (by simp [Bind.bind, Except.bind])
      | ok bs =>
        rw [exceptMapM, hfx, hxs] at h
        have hys : ys = b :: bs := by
          simpa [Bind.bind, Except.bind] using h.symm
        subst hys
        rcases List.mem_cons.mp ha with rfl | hmem
        · exact ⟨b, by simp, hfx⟩
        · obtain ⟨b2, hb2, hfb2⟩ := ih bs hxs a hmem
          exact ⟨b2, List.mem_cons_of_mem b hb2, hfb2⟩

theorem exceptMapM_error_of_mem {α β : Type} (f : α → Except String β)
    {a : α} {e : String} :
    ∀ l : List α, a ∈ l → f a = .error e →
      ∃ e2, exceptMapM f l = .error e2 := by
  intro l
  induction l with
  | nil =>
    intro ha
    exact absurd ha (List.not_mem_nil a)
  | cons x xs ih =>
    intro ha hfa
    cases hfx : f x with
    | error e3 =>
      refine ⟨e3, ?_⟩
      rw [exceptMapM, hfx]
      rfl
    | ok b =>
      rcases List.mem_cons.mp ha with rfl | hmem
      · rw [hfx] at hfa
        exact absurd hfa (by simp)
      · obtain ⟨e2, h2⟩ := ih hmem hfa
        refine ⟨e2, ?_⟩
        rw [exceptMapM, hfx, h2]
        rfl

theorem le_ceil_mul (t l : Nat) (hl : 1 ≤ l) : t ≤ ((t + l - 1) / l) * l := by
  have h1 : t + l - 1 < l * ((t + l - 1) / l + 1) := Nat.lt_mul_div_succ _ (by omega)
  rw [Nat.mul_succ] at h1
  rw [Nat.mul_comm l ((t + l - 1) / l)] at h1
  generalize h : ((t + l - 1) / l) * l = m at h1 ⊢
  omega

theorem ceil_le_of_le_mul {t l m : Nat} (hl : 1 ≤ l) (h : t ≤ m * l) :
    (t + l - 1) / l ≤ m := by
  rw [Nat.div_le_iff_le_mul_add_pred (show 0 < l by omega)]
  have h2 : l * m = m * l := Nat.mul_comm l m
  omega

/-- Every row the where-clause accepts is active. -/
theorem matchesFilters_active {f : Filters} {p : Product}
    (h : matchesFilters f p = true) : p.isActive = true := by
  rw [matchesFilters] at h
  simp only [Bool.and_eq_true] at h
  exact h.1.1.1.1.1

/-- Every row returned by `getProducts` is an accepted row of the table. -/
theorem getProducts_mem {db : CatalogDB} {f : Filters} {pg : Pagination}
    {p : Product} (h : p ∈ (getProducts db f pg).products) :
    p ∈ db.products ∧ matchesFilters f p = true := by
  rw [getProducts] at h
  simp only at h
  have h2 := List.mem_of_mem_drop (List.mem_of_mem_take h)
  exact ⟨(List.mem_filter.mp h2).1, (List.mem_filter.mp h2).2⟩

theorem splitCommaChars_ne_nil : ∀ l : List Char, splitCommaChars l ≠ []
  | [] => by simp [splitCommaChars]
  | c :: cs => by
    rw [splitCommaChars]
    by_cases h : c = ','
    · simp [h]
    · simp only [h, if_neg, ite_false]
      cases hs : splitCommaChars cs <;> simp

theorem splitComma_ne_nil (s : String) : splitComma s ≠ [] := by
  rw [splitComma]
  simp [splitCommaChars_ne_nil]

theorem splitComma_isEmpty (s : String) : (splitComma s).isEmpty = false := by
  cases hsp : splitComma s with
  | nil => exact absurd hsp (splitComma_ne_nil s)
  | cons a as => rfl

/-- Case analysis of `createProduct`: it either throws, or every stage
succeeded and the datastore gained exactly the new rows. -/
theorem createProduct_cases (db : CatalogDB) (pd : ProductData) (newId now : Nat) :
    (∃ e, createProduct db pd newId now = .error e)
    ∨ ∃ s vrows irows,
        exceptMapM (mkVariantRow newId now) (pd.variants.getD []) = .ok vrows
        ∧ exceptMapM (mkImageRow newId) (pd.images.getD []) = .ok irows
        ∧ createProduct db pd newId now =
            .ok ({ products := db.products ++ [mkProductRow pd newId s],
                   variants := db.variants ++ vrows,
                   images := db.images ++ irows }, mkProductRow pd newId s) := by
  by_cases hc : (¬ truthyStr pd.name ∨ ¬ truthyNat pd.categoryId
      ∨ ¬ truthyInt pd.basePrice)
  · exact Or.inl ⟨"Name, category, and base price are required",
      by rw [createProduct, if_pos hc]⟩
  · cases hs : generateSlugStr (pd.name.getD "") with
    | error e =>
      refine Or.inl ⟨e, ?_⟩
      rw [createProduct, if_neg hc, hs]
      rfl
    | ok s =>
      cases hv : exceptMapM (mkVariantRow newId now) (pd.variants.getD []) with
      | error e =>
        refine Or.inl ⟨e, ?_⟩
        rw [createProduct, if_neg hc, hs, hv]
        rfl
      | ok vrows =>
        cases hi : exceptMapM (mkImageRow newId) (pd.images.getD []) with
        | error e =>
          refine Or.inl ⟨e, ?_⟩
          rw [createProduct, if_neg hc, hs, hv, hi]
          rfl
        | ok irows =>
          refine Or.inr ⟨s, vrows, irows, rfl, rfl, ?_⟩
          rw [createProduct, if_neg hc, hs, hv, hi]
          rfl

/-! ## Claims -/

/-- C5: `generateSlug` returns the name lowercased with every maximal run of
non-alphanumeric characters replaced by a single hyphen and edge hyphens
removed (equivalently `slugSpec`, the hyphen-join of the maximal alphanumeric
runs of the lowercased name); it rejects — throws — exactly the names for
which this result is empty; and it is deterministic: equal names yield equal
slugs. -/
theorem generateSlug_correct (name : List Char) :
    slugTransform name = slugSpec name
    ∧ generateSlug name =
        (if slugSpec name = [] then Except.error "Invalid slug generated"
         else Except.ok (slugSpec name))
    ∧ ∀ other : List Char, name = other →
        generateSlug name = generateSlug other :=
  ⟨slugTransform_eq_slugSpec name, generateSlug_eq name, fun _ h => by rw [h]⟩

/-- Witness for C5 at the repository's own test vector. -/
theorem generateSlug_correct_witness :
    generateSlug ("Test Product! @#".toList)
      = generateSlug ("Test Product! @#".toList)
    ∧ generateSlug ("Test Product! @#".toList)
      = Except.ok ("test-product".toList) :=
  ⟨(generateSlug_correct ("Test Product! @#".toList)).2.2 _ rfl, by rfl⟩

/-- C3 counterexample: a `PUT /products/:id` for a missing id answers status
400, not the claimed 404 (the update controller maps every thrown error to
400). -/
theorem updateNotFound_counterexample :
    (updateProductC dbEmpty 1 {}).2.status = 400
    ∧ (updateProductC dbEmpty 1 {}).2.status ≠ 404
    ∧ (updateProductC dbEmpty 1 {}).2.error = some "Product not found"
    ∧ (updateProductC dbEmpty 1 {}).1 = dbEmpty := by
  decide

/-- C3 amended: a `PUT /products/:id` for a missing id fails with status 400
(not 404), the error message "Product not found", and no product row is
modified. -/
theorem updateNotFound_amended (db : CatalogDB) (i : Nat) (u : UpdateData)
    (hfind : findByPk db.products i = none) :
    (updateProductC db i u).2.status = 400
    ∧ (updateProductC db i u).2.success = false
    ∧ (updateProductC db i u).2.error = some "Product not found"
    ∧ (updateProductC db i u).1 = db := by
  have hupd : updateProduct db i u = .error "Product not found" := by
    rw [updateProduct, hfind]
  rw [updateProductC, hupd]
  exact ⟨rfl, rfl, rfl, rfl⟩

/-- Witness for the amended C3 on the empty datastore. -/
theorem updateNotFound_amended_witness :
    findByPk dbEmpty.products 1 = none
    ∧ (updateProductC dbEmpty 1 {}).2.error = some "Product not found" :=
  ⟨rfl, (updateNotFound_amended dbEmpty 1 {} rfl).2.2.1⟩

/-- C1 counterexample: deleting the only (active) product succeeds and flips
its flag, but the subsequent `GET /products/:id` answers 200 with the row
rather than 404 — `getProductById` looks the row up by primary key without
restricting to active rows. -/
theorem softDelete_get_counterexample :
    (deleteProductC dbA 1).2.status = 200
    ∧ (deleteProductC dbA 1).1.products = [{ prodA with isActive := false }]
    ∧ (getProductC (deleteProductC dbA 1).1 1).status = 200
    ∧ (getProductC (deleteProductC dbA 1).1 1).status ≠ 404
    ∧ (getProductC (deleteProductC dbA 1).1 1).data
        = some { prodA with isActive := false } := by
  decide

/-- C1 amended: DELETE on an existing product answers 200 and only flips the
row's `isActive` flag (the row count is unchanged and the row is still found
by id, now inactive); the subsequent `GET /products/:id`, however, answers
200 with that row — not 404 — while the product does disappear from
`GET /products` listings, whose rows are always active. -/
theorem softDelete_amended (db : CatalogDB) (i : Nat) (p : Product)
    (hfind : findByPk db.products i = some p) :
    (deleteProductC db i).2.status = 200
    ∧ (deleteProductC db i).2.message = some "Product deleted successfully"
    ∧ (deleteProductC db i).1.products.length = db.products.length
    ∧ findByPk (deleteProductC db i).1.products i
        = some { p with isActive := false }
    ∧ (getProductC (deleteProductC db i).1 i).status = 200
    ∧ (getProductC (deleteProductC db i).1 i).data
        = some { p with isActive := false }
    ∧ ∀ f pg x, x ∈ (getProducts (deleteProductC db i).1 f pg).products →
        x.isActive = true := by
  have hfindq : db.products.find? (fun q => q.id == i) = some p := hfind
  have hpid : (p.id == i) = true := by
    have h := List.find?_some hfindq
    simpa using h
  have hdel : deleteProduct db i =
      .ok { db with products := db.products.map (softDeleteRow i) } := by
    rw [deleteProduct, hfind]
  have hfind2 : findByPk (db.products.map (softDeleteRow i)) i
      = some { p with isActive := false } := by
    rw [findByPk, find?_map_comp]
    have hpr : (fun a => (softDeleteRow i a).id == i)
        = (fun a : Product => a.id == i) := by
      funext a
      by_cases h : (a.id == i) = true
      · simp [softDeleteRow, h]
      · simp [softDeleteRow, h]
    rw [hpr, hfindq, Option.map_some']
    simp [softDeleteRow, hpid]
  refine ⟨?_, ?_, ?_, ?_, ?_, ?_, ?_⟩
  · rw [deleteProductC, hdel]
  · rw [deleteProductC, hdel]
  · rw [deleteProductC, hdel]
    simp
  · rw [deleteProductC, hdel]
    exact hfind2
  · rw [deleteProductC, hdel]
    simp only [getProductC, getProductById, hfind2]
  · rw [deleteProductC, hdel]
    simp only [getProductC, getProductById, hfind2]
  · intro f pg x hx
    exact matchesFilters_active (getProducts_mem hx).2

/-- Witness for the amended C1 on the one-product datastore. -/
theorem softDelete_amended_witness :
    findByPk dbA.products 1 = some prodA
    ∧ (deleteProductC dbA 1).2.status = 200
    ∧ (getProductC (deleteProductC dbA 1).1 1).status = 200 :=
  ⟨rfl, (softDelete_amended dbA 1 prodA rfl).1,
    (softDelete_amended dbA 1 prodA rfl).2.2.2.2.1⟩

/-- C6: on `/profile` requests, the `auth` middleware answers 401
"No token provided" when no bearer token is present (no header, or nothing
left after stripping `Bearer `), 401 "Invalid token" when the extracted token
fails verification, and otherwise hands the decoded claims to the protected
handler, which runs. -/
theorem auth_middleware_correct {α : Type} (verify : String → Option JwtPayload)
    (header : Option String) (handler : JwtPayload → α) :
    (extractToken header = none →
      auth verify header handler = .response 401 false "No token provided")
    ∧ (∀ t, extractToken header = some t → verify t = none →
      auth verify header handler = .response 401 false "Invalid token")
    ∧ (∀ t c, extractToken header = some t → verify t = some c →
      auth verify header handler = .handled (handler c)) := by
  cases header with
  | none =>
    refine ⟨fun _ => rfl, fun t ht => ?_, fun t c ht => ?_⟩
    · exact absurd ht (by rw [extractToken]; simp)
    · exact absurd ht (by rw [extractToken]; simp)
  | some h =>
    by_cases ht : String.mk (replaceFirst "Bearer ".toList h.toList) = ""
    · refine ⟨fun _ => ?_, fun t hsome => ?_, fun t c hsome => ?_⟩
      · rw [auth]
        simp only [ht, if_pos]
      · rw [extractToken] at hsome
        simp only [ht, if_pos] at hsome
        exact fun _ => absurd hsome (by simp)
      · rw [extractToken] at hsome
        simp only [ht, if_pos] at hsome
        exact fun _ => absurd hsome (by simp)
    · have hsome : extractToken (some h)
          = some (String.mk (replaceFirst "Bearer ".toList h.toList)) := by
        rw [extractToken]
        simp only [ht, if_neg, ite_false]
      refine ⟨fun hnone => ?_, fun t htok hver => ?_, fun t c htok hver => ?_⟩
      · rw [hsome] at hnone
        exact absurd hnone (by simp)
      · rw [hsome] at htok
        have htt : t = String.mk (replaceFirst "Bearer ".toList h.toList) :=
          (Option.some.injEq _ _ ▸ htok).symm
        subst htt
        rw [auth]
        simp only [ht, if_neg, ite_false, hver]
      · rw [hsome] at htok
        have htt : t = String.mk (replaceFirst "Bearer ".toList h.toList) :=
          (Option.some.injEq _ _ ▸ htok).symm
        subst htt
        rw [auth]
        simp only [ht, if_neg, ite_false, hver]

/-- Witness for C6: the three middleware outcomes at concrete requests. -/
theorem auth_middleware_correct_witness :
    auth verifyW (some "Bearer tok123") (fun c => c.id) = .handled 7
    ∧ auth verifyW none (fun c => c.id)
        = .response 401 false "No token provided"
    ∧ auth verifyW (some "Bearer bad") (fun c => c.id)
        = .response 401 false "Invalid token" :=
  ⟨(auth_middleware_correct verifyW (some "Bearer tok123") _).2.2 "tok123" _ rfl rfl,
    (auth_middleware_correct verifyW none _).1 rfl,
    (auth_middleware_correct verifyW (some "Bearer bad") _).2.1 "bad" rfl rfl⟩

/-- C8: a register request whose body passes validation is rejected with 400
and error "Email already registered" when a user with that email already
exists, and no user row is created; with a fresh email the user is stored
with the bcrypt hash of the password and the response is 201. -/
theorem register_correct {β : Type}
    (validate : β → Except (List String) RegisterValue)
    (hash : String → String) (db : List User) (newId : Nat) (body : β)
    (v : RegisterValue) (hval : validate body = .ok v) :
    ((∃ u ∈ db, u.email = v.email) →
      (register validate hash db newId body).2.status = 400
      ∧ (register validate hash db newId body).2.error
          = some "Email already registered"
      ∧ (register validate hash db newId body).1 = db)
    ∧ ((∀ u ∈ db, u.email ≠ v.email) →
      (register validate hash db newId body).2.status = 201
      ∧ (register validate hash db newId body).1
          = db ++ [{ id := newId, email := v.email,
                     password := hash v.password, name := v.name,
                     role := v.role, isVerified := false }]) := by
  constructor
  · rintro ⟨u, hu, he⟩
    have hsome : (db.find? (fun x => x.email == v.email)).isSome :=
      List.find?_isSome.mpr ⟨u, hu, by simp [he]⟩
    obtain ⟨u2, hu2⟩ := Option.isSome_iff_exists.mp hsome
    rw [register, hval]
    dsimp only
    rw [hu2]
    exact ⟨rfl, rfl, rfl⟩
  · intro hall
    have hnone : db.find? (fun x => x.email == v.email) = none :=
      List.find?_eq_none.mpr (fun u hu => by simp [hall u hu])
    rw [register, hval]
    dsimp only
    rw [hnone]
    exact ⟨rfl, rfl⟩

/-- Witness for C8: duplicate email rejected, fresh email stored hashed. -/
theorem register_correct_witness :
    (register validateReg1 hash0 dbUsers0 2 ()).2.error
        = some "Email already registered"
    ∧ (register validateReg1 hash0 dbUsers0 2 ()).1 = dbUsers0
    ∧ (register validateReg0 hash0 dbUsers0 2 ()).2.status = 201
    ∧ (register validateReg0 hash0 dbUsers0 2 ()).1
        = dbUsers0 ++ [{ id := 2, email := "new@example.com",
                         password := hash0 "secret1", name := "Ann",
                         role := "customer", isVerified := false }] := by
  have hdup := (register_correct validateReg1 hash0 dbUsers0 2 ()
      { email := "old@example.com", password := "secret1", name := "Ann" } rfl).1
      ⟨{ id := 1, email := "old@example.com", password := "hashed-pw",
         name := "Old", role := "customer", isVerified := false },
        by simp [dbUsers0], rfl⟩
  have hfresh := (register_correct validateReg0 hash0 dbUsers0 2 ()
      { email := "new@example.com", password := "secret1", name := "Ann" } rfl).2
      (by decide)
  exact ⟨hdup.2.1, hdup.2.2, hfresh.1, hfresh.2⟩

/-- C9: an authenticated `PUT /profile` can only change the `name` and
`role` columns: whatever the body supplies, every row after the call agrees
with the row before it on every other column (in particular `email` and
`password`), and no row is added or removed. -/
theorem updateProfile_frame (db : List User) (uid : Nat) (b : ProfileBody) :
    (updateProfileC db uid b).1.length = db.length
    ∧ ∀ j x2, (updateProfileC db uid b).1.get? j = some x2 →
        ∃ x, db.get? j = some x
          ∧ x2 = { x with name := x2.name, role := x2.role } := by
  rw [updateProfileC]
  cases hf : db.find? (fun u => u.id == uid) with
  | none =>
    refine ⟨rfl, ?_⟩
    intro j x2 hx
    exact ⟨x2, hx, by cases x2; rfl⟩
  | some u =>
    dsimp only
    split
    · refine ⟨rfl, ?_⟩
      intro j x2 hx
      exact ⟨x2, hx, by cases x2; rfl⟩
    · refine ⟨by simp, ?_⟩
      intro j x2 hx
      rw [List.get?_eq_getElem?, List.getElem?_map, ← List.get?_eq_getElem?] at hx
      cases hdb : db.get? j with
      | none =>
        rw [hdb] at hx
        exact absurd hx (by simp)
      | some x =>
        rw [hdb] at hx
        have hx2 : (if x.id == uid then applyProfileUpdate x b else x) = x2 := by
          simpa using hx
        refine ⟨x, rfl, ?_⟩
        by_cases hid : (x.id == uid) = true
        · rw [if_pos hid] at hx2
          rw [← hx2]
          cases x
          rfl
        · rw [if_neg hid] at hx2
          rw [← hx2]

/-- Witness for C9: a body supplying every column changes only name and
role of the stored user. -/
theorem updateProfile_frame_witness :
    (∃ x, dbUsers1.get? 0 = some x
      ∧ ({ id := 5, email := "p@q.example", password := "stored-hash",
           name := "Eve", role := "admin", isVerified := true } : User)
        = { x with name := "Eve", role := "admin" })
    ∧ ((updateProfileC dbUsers1 5 bodyAttack).1.get? 0).map User.email
        = some "p@q.example"
    ∧ ((updateProfileC dbUsers1 5 bodyAttack).1.get? 0).map User.password
        = some "stored-hash" := by
  refine ⟨?_, by decide, by decide⟩
  exact (updateProfile_frame dbUsers1 5 bodyAttack).2 0
    { id := 5, email := "p@q.example", password := "stored-hash",
      name := "Eve", role := "admin", isVerified := true } (by decide)

/-- C10: a login with an unknown email and a login with a known email but
wrong password produce identical responses — status 401 and body
`{success: false, error: 'Invalid credentials'}` (no token) — so the
endpoint does not reveal whether an account exists. -/
theorem login_indistinguishable {β : Type}
    (validate : β → Except (List String) (String × String))
    (compare : String → String → Bool) (sign : User → String)
    (db : List User) (b1 b2 : β) (e1 p1 e2 p2 : String) (u : User)
    (h1 : validate b1 = .ok (e1, p1))
    (h2 : validate b2 = .ok (e2, p2))
    (hno : db.find? (fun x => x.email == e1) = none)
    (hyes : db.find? (fun x => x.email == e2) = some u)
    (hbad : compare p2 u.password = false) :
    login validate compare sign db b1 = login validate compare sign db b2
    ∧ login validate compare sign db b1 =
        { status := 401, success := false,
          error := some "Invalid credentials" } := by
  have hl1 : login validate compare sign db b1 =
      { status := 401, success := false, error := some "Invalid credentials" } := by
    rw [login, h1]
    dsimp only
    rw [hno]
  have hl2 : login validate compare sign db b2 =
      { status := 401, success := false, error := some "Invalid credentials" } := by
    rw [login, h2]
    dsimp only
    rw [hyes]
    dsimp only
    rw [hbad]
    rfl
  rw [hl1, hl2]
  exact ⟨rfl, rfl⟩

/-- Witness for C10 on a concrete table, validator, comparer and signer. -/
theorem login_indistinguishable_witness :
    login validateLogin0 compare0 sign0 dbUsers2 1
      = login validateLogin0 compare0 sign0 dbUsers2 2
    ∧ login validateLogin0 compare0 sign0 dbUsers2 1
      = { status := 401, success := false,
          error := some "Invalid credentials" } :=
  login_indistinguishable validateLogin0 compare0 sign0 dbUsers2 1 2
    "ghost@example.com" "whatever" "known@example.com" "wrong-pw"
    { id := 9, email := "known@example.com", password := "hashed-login-pw",
      name := "Kay", role := "customer", isVerified := true }
    rfl rfl (by decide) (by decide) (by decide)

/-- C4: product creation is all-or-nothing: when some listed variant lacks a
(truthy) name or price, or some listed image lacks an imageUrl, the request
fails with status 400 and no product, variant or image row is stored; when
the request succeeds (201), the product row and a row for every listed
variant and image exist in the new datastore. -/
theorem createProduct_atomic (db : CatalogDB) (pd : ProductData) (newId now : Nat) :
    (((∃ vd ∈ pd.variants.getD [],
          truthyStr vd.name = false ∨ truthyInt vd.price = false)
        ∨ ∃ im ∈ pd.images.getD [], truthyStr im.imageUrl = false) →
      (createProductC db pd newId now).2.status = 400
      ∧ (createProductC db pd newId now).2.success = false
      ∧ (createProductC db pd newId now).1 = db)
    ∧ ((createProductC db pd newId now).2.status = 201 →
      ∃ p, (createProductC db pd newId now).2.data = some p
        ∧ p ∈ (createProductC db pd newId now).1.products
        ∧ (∀ vd ∈ pd.variants.getD [],
            ∃ v ∈ (createProductC db pd newId now).1.variants,
              mkVariantRow newId now vd = .ok v)
        ∧ ∀ im ∈ pd.images.getD [],
            ∃ r ∈ (createProductC db pd newId now).1.images,
              mkImageRow newId im = .ok r) := by
  rcases createProduct_cases db pd newId now with ⟨e, herr⟩ |
    ⟨s, vrows, irows, hv, hi, hok⟩
  · constructor
    · intro _
      rw [createProductC, herr]
      exact ⟨rfl, rfl, rfl⟩
    · intro hstatus
      rw [createProductC, herr] at hstatus
      exact absurd hstatus (by simp)
  · constructor
    · rintro (⟨vd, hmem, hbad⟩ | ⟨im, hmem, hbad⟩)
      · have herr2 : mkVariantRow newId now vd
            = .error "Each variant must have a name and price" := by
          rw [mkVariantRow, if_pos]
          rcases hbad with h | h
          · exact Or.inl (by simp [h])
          · exact Or.inr (by simp [h])
        obtain ⟨e2, he2⟩ := exceptMapM_error_of_mem _ _ hmem herr2
        rw [hv] at he2
        exact absurd he2 (by simp)
      · have herr2 : mkImageRow newId im
            = .error "Each image must have a valid imageUrl" := by
          rw [mkImageRow, if_pos]
          simp [hbad]
        obtain ⟨e2, he2⟩ := exceptMapM_error_of_mem _ _ hmem herr2
        rw [hi] at he2
        exact absurd he2 (by simp)
    · intro _
      refine ⟨mkProductRow pd newId s, ?_, ?_, ?_, ?_⟩
      · rw [createProductC, hok]
      · rw [createProductC, hok]
        exact List.mem_append_right _ (by simp)
      · intro vd hmem
        obtain ⟨b, hb, hfb⟩ := exceptMapM_ok_mem _ _ _ hv vd hmem
        refine ⟨b, ?_, hfb⟩
        rw [createProductC, hok]
        exact List.mem_append_right _ hb
      · intro im hmem
        obtain ⟨b, hb, hfb⟩ := exceptMapM_ok_mem _ _ _ hi im hmem
        refine ⟨b, ?_, hfb⟩
        rw [createProductC, hok]
        exact List.mem_append_right _ hb

/-- Witness for C4: a payload whose variant lacks a price is rejected with
400 and the datastore is untouched; a well-formed payload is stored whole. -/
theorem createProduct_atomic_witness :
    (createProductC dbC4 pdBad 1 99).2.status = 400
    ∧ (createProductC dbC4 pdBad 1 99).1 = dbC4
    ∧ (createProductC dbC4 pdGood 1 99).2.status = 201
    ∧ ∃ p, (createProductC dbC4 pdGood 1 99).2.data = some p
        ∧ p ∈ (createProductC dbC4 pdGood 1 99).1.products
        ∧ (∀ vd ∈ pdGood.variants.getD [],
            ∃ v ∈ (createProductC dbC4 pdGood 1 99).1.variants,
              mkVariantRow 1 99 vd = .ok v)
        ∧ ∀ im ∈ pdGood.images.getD [],
            ∃ r ∈ (createProductC dbC4 pdGood 1 99).1.images,
              mkImageRow 1 im = .ok r := by
  have hbad := (createProduct_atomic dbC4 pdBad 1 99).1
    (Or.inl ⟨{ name := some "Small" }, by simp [pdBad], Or.inr (by decide)⟩)
  have hgood := (createProduct_atomic dbC4 pdGood 1 99).2 (by rfl)
  exact ⟨hbad.1, hbad.2.2, by rfl, hgood⟩

/-- C2 counterexample: with no query parameters at all, the one stored
product — active, customizable — satisfies the conjunction of the (zero)
present filters, yet the endpoint returns nothing: the controller always
passes `isCustomizable === 'true'`, here `false`, and the service then
filters on it. -/
theorem filters_customizable_counterexample :
    specMatchesQuery emptyQuery prodC2 = true
    ∧ prodC2 ∈ dbC2.products
    ∧ (getProductsC dbC2 emptyQuery).result.products = []
    ∧ (getProductsC dbC2 emptyQuery).result.products
        ≠ dbC2.products.filter (specMatchesQuery emptyQuery) := by
  decide

/-- C2 amended: the rows the `GET /products` pipeline accepts are exactly
the active rows satisfying the conjunction of the present filters PLUS an
always-applied customizable filter with value `isCustomizable === 'true'`
(`amendedMatchesQuery`); every other absent filter imposes no restriction,
and the response carries the page-slice of that filtered list. -/
theorem filters_amended (db : CatalogDB) (q : ProductsQuery) :
    (∀ p, matchesFilters (buildFilters q) p = amendedMatchesQuery q p)
    ∧ (getProductsC db q).result.products
        = ((db.products.filter (amendedMatchesQuery q)).drop
            (((buildPagination q).page - 1) * (buildPagination q).limit)).take
            (buildPagination q).limit
    ∧ (getProductsC db q).result.totalItems
        = (db.products.filter (amendedMatchesQuery q)).length := by
  have hpt : ∀ p, matchesFilters (buildFilters q) p = amendedMatchesQuery q p := by
    intro p
    obtain ⟨cid, se, mn, mx, ic, tg, pg, lm⟩ := q
    rcases tg with _ | s
    · rcases mn with _ | a <;> rcases mx with _ | b <;>
        simp [matchesFilters, amendedMatchesQuery, buildFilters]
    · by_cases hs : s = "" <;>
        rcases mn with _ | a <;> rcases mx with _ | b <;>
        simp [matchesFilters, amendedMatchesQuery, buildFilters, hs,
          splitComma_isEmpty]
  have hfil : db.products.filter (matchesFilters (buildFilters q))
      = db.products.filter (amendedMatchesQuery q) :=
    List.filter_congr (fun p _ => hpt p)
  refine ⟨hpt, ?_, ?_⟩
  · rw [getProductsC, getProducts]
    simp only
    rw [hfil]
  · rw [getProductsC, getProducts]
    simp only
    rw [hfil]

/-- C7: for a `GET /products` with page `p ≥ 1` and limit `l ≥ 1`, at most
`l` rows are returned, namely the rows of the sorted filtered table at
offsets `(p-1)·l` through `p·l - 1`; `totalItems` counts all matching rows,
`page` and `limit` are echoed, and `totalPages` is the ceiling of
`totalItems / l` (characterised as the least page count covering all
items). -/
theorem getProducts_pagination_correct (db : CatalogDB) (f : Filters)
    (p l : Nat) (hp : 1 ≤ p) (hl : 1 ≤ l) :
    (getProducts db f { page := p, limit := l }).products.length ≤ l
    ∧ (∀ i, i < l →
        (getProducts db f { page := p, limit := l }).products.get? i
          = (db.products.filter (matchesFilters f)).get? ((p - 1) * l + i))
    ∧ (getProducts db f { page := p, limit := l }).totalItems
        = (db.products.filter (matchesFilters f)).length
    ∧ (getProducts db f { page := p, limit := l }).page = p
    ∧ (getProducts db f { page := p, limit := l }).limit = l
    ∧ (getProducts db f { page := p, limit := l }).totalItems
        ≤ (getProducts db f { page := p, limit := l }).totalPages * l
    ∧ ∀ m, (getProducts db f { page := p, limit := l }).totalItems ≤ m * l →
        (getProducts db f { page := p, limit := l }).totalPages ≤ m := by
  refine ⟨?_, ?_, rfl, rfl, rfl, ?_, ?_⟩
  · rw [getProducts]
    simp only [List.length_take]
    exact Nat.min_le_left _ _
  · intro i hi
    rw [getProducts]
    simp only
    rw [List.get?_take_eq_if]
    rw [if_pos hi, List.get?_drop]
  · rw [getProducts]
    exact le_ceil_mul _ l hl
  · intro m hm
    rw [getProducts] at hm ⊢
    exact ceil_le_of_le_mul hl hm

/-- Witness for C7: page 2, limit 1 of a three-product table. -/
theorem getProducts_pagination_correct_witness :
    (getProducts dbC7 {} { page := 2, limit := 1 }).products.length ≤ 1
    ∧ (getProducts dbC7 {} { page := 2, limit := 1 }).products.get? 0
        = (dbC7.products.filter (matchesFilters {})).get? 1
    ∧ ∀ m, (getProducts dbC7 {} { page := 2, limit := 1 }).totalItems ≤ m * 1 →
        (getProducts dbC7 {} { page := 2, limit := 1 }).totalPages ≤ m := by
  have h := getProducts_pagination_correct dbC7 {} 2 1 (by decide) (by decide)
  exact ⟨h.1, h.2.1 0 (by decide), h.2.2.2.2.2.2⟩

end Catalog
